import Mathlib

/-!
Verification of the task-list application in `src/main.ts`.

The TypeScript core is shallowly embedded: the `Task` record and the pure
list-transforming bodies of the CRUD helpers are translated directly.
Environment inputs that the browser supplies (generated ids, `Date.now()`,
values read from DOM inputs, the `prompt`/`confirm` answers) become explicit
function parameters.  `localStorage` is modelled as an optional stored JSON
tree: `JSON.stringify`/`JSON.parse` are modelled at the level of JSON values
(string-level escaping is host behaviour), faithfully including the fact that
`JSON.stringify` omits object fields whose value is `undefined`.

JavaScript truthiness is modelled exactly where the source relies on it:
`task.dueDate && ...` is false when `dueDate` is `undefined` or the number `0`,
so a due timestamp of `0` behaves as if no due date were set.
-/

namespace TodoApp

/-- Filter enumeration from `type Filter = "all" | "active" | "done"`. -/
inductive Filter where
  | all
  | active
  | done
deriving DecidableEq, Repr

/-- Priority enumeration from `type Prioridad = 'alta' | 'media' | 'baja'`. -/
inductive Prioridad where
  | alta
  | media
  | baja
deriving DecidableEq, Repr

/-- Category enumeration from `type Categoria = 'matematicas' | 'espanol'`. -/
inductive Categoria where
  | matematicas
  | espanol
deriving DecidableEq, Repr

/-- The `Task` interface of `src/main.ts`.  Timestamps are milliseconds since
the epoch, modelled as unbounded integers; optional fields become `Option`. -/
structure Task where
  id : String
  title : String
  description : Option String
  done : Bool
  createdAt : Int
  dueDate : Option Int
  prioridad : Prioridad
  categoria : Option Categoria
deriving DecidableEq, Repr

/-- JSON values, as produced by `JSON.stringify` and consumed by
`JSON.parse`; objects keep their fields in insertion order. -/
inductive Json where
  | str : String → Json
  | num : Int → Json
  | bool : Bool → Json
  | arr : List Json → Json
  | obj : List (String × Json) → Json

/-- Serialization of a `Prioridad` value to its literal string. -/
def Prioridad.toStr : Prioridad → String
  | .alta => "alta"
  | .media => "media"
  | .baja => "baja"

/-- Parse a priority literal string. -/
def Prioridad.ofStr : String → Option Prioridad
  | "alta" => some .alta
  | "media" => some .media
  | "baja" => some .baja
  | _ => none

/-- Serialization of a `Categoria` value to its literal string. -/
def Categoria.toStr : Categoria → String
  | .matematicas => "matematicas"
  | .espanol => "espanol"

/-- Parse a category literal string. -/
def Categoria.ofStr : String → Option Categoria
  | "matematicas" => some .matematicas
  | "espanol" => some .espanol
  | _ => none

/-- JSON encoding of one task, mirroring `JSON.stringify` on the object
literal built in `addTask`: field order `id, title, description, done,
createdAt, dueDate, prioridad, categoria`, with `undefined` fields omitted. -/
def encodeTask (t : Task) : Json :=
  .obj ([("id", .str t.id), ("title", .str t.title)]
    ++ (match t.description with
        | some d => [("description", .str d)]
        | none => [])
    ++ [("done", .bool t.done), ("createdAt", .num t.createdAt)]
    ++ (match t.dueDate with
        | some d => [("dueDate", .num d)]
        | none => [])
    ++ [("prioridad", .str t.prioridad.toStr)]
    ++ (match t.categoria with
        | some c => [("categoria", .str c.toStr)]
        | none => []))

/-- JSON encoding of the whole `state.tasks` array. -/
def encodeTasks (ts : List Task) : Json :=
  .arr (ts.map encodeTask)

/-- Field lookup in a JSON object, as property access on a parsed object. -/
def getField : List (String × Json) → String → Option Json
  | [], _ => none
  | (k, v) :: rest, key => if k = key then some v else getField rest key

/-- Extract a JSON string. -/
def asStr : Json → Option String
  | .str s => some s
  | _ => none

/-- Extract a JSON number. -/
def asNum : Json → Option Int
  | .num n => some n
  | _ => none

/-- Extract a JSON boolean. -/
def asBool : Json → Option Bool
  | .bool b => some b
  | _ => none

/-- Decode one task from a JSON value.  The TypeScript source performs no
shape validation (`JSON.parse(data) as Task[]`); this decoder recognises
exactly the shapes a `Task` value can take, which is what the surrounding
`try`/`catch`-to-`[]` pipeline observes on well-formed data. -/
def decodeTask : Json → Option Task
  | .obj fs => do
    let id ← (getField fs "id").bind asStr
    let title ← (getField fs "title").bind asStr
    let description ←
      match getField fs "description" with
      | some v => (asStr v).map some
      | none => some none
    let done ← (getField fs "done").bind asBool
    let createdAt ← (getField fs "createdAt").bind asNum
    let dueDate ←
      match getField fs "dueDate" with
      | some v => (asNum v).map some
      | none => some none
    let prioridad ← (getField fs "prioridad").bind asStr
    let prioridad ← Prioridad.ofStr prioridad
    let categoria ←
      match getField fs "categoria" with
      | some v => ((asStr v).bind Categoria.ofStr).map some
      | none => some none
    pure { id := id, title := title, description := description,
           done := done, createdAt := createdAt, dueDate := dueDate,
           prioridad := prioridad, categoria := categoria }
  | _ => none

/-- Decode a list of tasks elementwise; any failure fails the whole parse,
which the `catch` in `loadTasks` turns into the empty list. -/
def decodeTaskList : List Json → Option (List Task)
  | [] => some []
  | j :: rest =>
    match decodeTask j, decodeTaskList rest with
    | some t, some ts => some (t :: ts)
    | _, _ => none

/-- Decode the persisted array of tasks. -/
def decodeTasks : Json → Option (List Task)
  | .arr xs => decodeTaskList xs
  | _ => none

/-- The persisted store under the key `todo-app-tasks`: `none` when the key
is absent, `some j` when it holds the JSON value `j`. -/
def Storage := Option Json

/-- The body of `saveTasks`: `localStorage.setItem(STORAGE_KEY,
JSON.stringify(state.tasks))`. -/
def saveTasks (tasks : List Task) (_st : Storage) : Storage :=
  some (encodeTasks tasks)

/-- The body of `loadTasks`: parse the stored value, returning `[]` when the
key is absent or the content fails to parse as a task array. -/
def loadTasks (st : Storage) : List Task :=
  match st with
  | none => []
  | some j => (decodeTasks j).getD []

/-- The body of `clearAllStorage`: `localStorage.removeItem(STORAGE_KEY)`. -/
def clearAllStorage (_st : Storage) : Storage :=
  (none : Option Json)

/-- Per-character lowercasing, the model of `String.prototype.toLowerCase`
(restricted to the simple one-character case mapping). -/
def toLowerStr (s : String) : String :=
  String.mk (s.data.map Char.toLower)

/-- Contiguous-substring test on character lists, the model of
`String.prototype.includes`. -/
def containsSub : List Char → List Char → Bool
  | [], q => q.isEmpty
  | c :: rest, q => q.isPrefixOf (c :: rest) || containsSub rest q

/-- The model of `haystack.includes(needle)` on strings. -/
def jsIncludes (haystack needle : String) : Bool :=
  containsSub haystack.data needle.data

/-- The model of `String.prototype.trim`: drop leading and trailing
whitespace. -/
def jsTrim (s : String) : String :=
  String.mk (((s.data.dropWhile Char.isWhitespace).reverse.dropWhile
    Char.isWhitespace).reverse)

/-- The body of `addTask`.  Browser-environment inputs become parameters:
`newId` is the value returned by `uid()`, `now` by `Date.now()`,
`descriptionInput` is the raw text of the description box (the source trims
it and maps the empty result to `undefined`), `dueDate` is
`new Date($dueDate.value).getTime()` when the date box is non-empty and
`none` otherwise, and `prioridad`/`categoria` are the select values.
When the trimmed title is empty the function returns without touching
the task list. -/
def addTask (newId : String) (now : Int) (title : String)
    (descriptionInput : String) (dueDate : Option Int)
    (prioridad : Prioridad) (categoria : Categoria)
    (tasks : List Task) : List Task :=
  let trimmed := jsTrim title
  if trimmed = "" then tasks
  else
    let description := if jsTrim descriptionInput = "" then none
      else some (jsTrim descriptionInput)
    { id := newId, title := trimmed, description := description,
      done := false, createdAt := now, dueDate := dueDate,
      prioridad := prioridad, categoria := some categoria } :: tasks

/-- The body of `toggleTask`: map over the list, flipping `done` of the
task whose id matches. -/
def toggleTask (id : String) (tasks : List Task) : List Task :=
  tasks.map (fun t => if t.id = id then { t with done := !t.done } else t)

/-- The body of `removeTask`: keep the tasks whose id differs. -/
def removeTask (id : String) (tasks : List Task) : List Task :=
  tasks.filter (fun t => t.id ≠ id)

/-- The body of `clearDone`: keep the tasks that are not done. -/
def clearDone (tasks : List Task) : List Task :=
  tasks.filter (fun t => !t.done)

/-- The body of `editTaskTitle`.  `promptResult` is what `prompt` returned
(`none` models the user cancelling).  The function aborts without change
when the id is not found, when the prompt is cancelled, or when the trimmed
new title is empty; otherwise it replaces the matching task's title. -/
def editTaskTitle (id : String) (promptResult : Option String)
    (tasks : List Task) : List Task :=
  match tasks.find? (fun t => t.id = id) with
  | none => tasks
  | some _ =>
    match promptResult with
    | none => tasks
    | some nuevo =>
      let trimmed := jsTrim nuevo
      if trimmed = "" then tasks
      else tasks.map (fun x => if x.id = id then { x with title := trimmed } else x)

/-- The body of `resetAll` together with the persistence side effect of the
`render()` call it ends with: `confirmAnswer` is what `confirm` returned.
Declining returns before any mutation.  Confirming empties the task list,
removes the storage key (`clearAllStorage`), and then `render` re-persists
the now-empty list (`saveTasks` is the last step of `render`). -/
def resetAll (confirmAnswer : Bool) (tasks : List Task) (st : Storage) :
    List Task × Storage :=
  if confirmAnswer then
    let tasks2 : List Task := []
    let st2 := clearAllStorage st
    (tasks2, saveTasks tasks2 st2)
  else (tasks, st)

/-- The body of `visibleTasks`, with the relevant pieces of the application
state (`state.filter`, `state.search`, `state.tasks`) as parameters. -/
def visibleTasks (filter : Filter) (search : String) (tasks : List Task) :
    List Task :=
  let filtered : List Task :=
    match filter with
    | .active => tasks.filter (fun t => !t.done)
    | .done => tasks.filter (fun t => t.done)
    | .all => tasks
  let query := toLowerStr search
  if query ≠ "" then
    filtered.filter (fun t => jsIncludes (toLowerStr t.title) query)
  else filtered

/-- The body of `isOverdue`, with `Date.now()` as the parameter `now`.
The source tests `task.dueDate && task.dueDate < Date.now() && !task.done`
under JavaScript truthiness: a `dueDate` that is `undefined` or the number
`0` short-circuits the conjunction to a falsy value. -/
def isOverdue (now : Int) (t : Task) : Bool :=
  match t.dueDate with
  | none => false
  | some d => decide (d ≠ 0) && decide (d < now) && !t.done

/-- Result type of `getDueDateStatus`. -/
inductive DueStatus where
  | overdue
  | today
  | soon
  | normal
deriving DecidableEq, Repr

/-- Milliseconds in a day, `24 * 60 * 60 * 1000`. -/
def dayInMs : Int := 24 * 60 * 60 * 1000

/-- The body of `getDueDateStatus`, with `Date.now()` as the parameter
`now`.  The guard `!task.dueDate || task.done` is truthiness again: a
missing due date or the timestamp `0` (or a completed task) yields
`normal` immediately. -/
def getDueDateStatus (now : Int) (t : Task) : DueStatus :=
  match t.dueDate with
  | none => .normal
  | some due =>
    if due = 0 ∨ t.done then .normal
    else if due < now then .overdue
    else if due < now + dayInMs then .today
    else if due < now + 3 * dayInMs then .soon
    else .normal

/-- The initialization block at the bottom of `src/main.ts`: load the
persisted tasks and, when the result is empty, seed the list with the three
sample tasks.  The three `uid()` results and `Date.now()` are parameters. -/
def initTasks (st : Storage) (id1 id2 id3 : String) (now : Int) : List Task :=
  let loaded := loadTasks st
  if loaded.isEmpty then
    [ { id := id1, title := "Revisar TypeScript", description := none,
        done := true, createdAt := now - 60000, dueDate := none,
        prioridad := .media, categoria := some .matematicas },
      { id := id2, title := "Agregar validación de tipos", description := none,
        done := false, createdAt := now - 40000, dueDate := none,
        prioridad := .alta, categoria := some .espanol },
      { id := id3, title := "Probar filtros y cards", description := none,
        done := false, createdAt := now - 20000, dueDate := none,
        prioridad := .baja, categoria := some .matematicas } ]
  else loaded

/-- One user-level mutating operation on the task list, with the
environment inputs the source reads (generated id, clock, DOM inputs,
prompt and confirm answers) packaged into the constructor. -/
inductive Op where
  | add (newId : String) (now : Int) (title descriptionInput : String)
      (dueDate : Option Int) (prioridad : Prioridad) (categoria : Categoria)
  | toggle (id : String)
  | remove (id : String)
  | clearDone
  | editTitle (id : String) (promptResult : Option String)
  | reset (confirmAnswer : Bool)

/-- Effect of one operation on the task list (the `state.tasks` component;
`reset` with confirmation also clears storage, which does not affect the
in-memory list beyond emptying it). -/
def applyOp (op : Op) (tasks : List Task) : List Task :=
  match op with
  | .add newId now title descriptionInput dueDate prioridad categoria =>
    addTask newId now title descriptionInput dueDate prioridad categoria tasks
  | .toggle id => toggleTask id tasks
  | .remove id => removeTask id tasks
  | .clearDone => clearDone tasks
  | .editTitle id promptResult => editTaskTitle id promptResult tasks
  | .reset confirmAnswer => if confirmAnswer then [] else tasks

/-- Effect of a sequence of operations, oldest first. -/
def applyOps (ops : List Op) (tasks : List Task) : List Task :=
  ops.foldl (fun ts op => applyOp op ts) tasks

/-- The ids of the tasks are pairwise distinct. -/
abbrev idsNodup (tasks : List Task) : Prop :=
  (tasks.map Task.id).Nodup

/-- Freshness of the environment-supplied id for one operation: an `add`
that will actually insert must be handed an id not already present.  This
is the property the source obtains probabilistically from `uid()`. -/
def opFresh (op : Op) (tasks : List Task) : Bool :=
  match op with
  | .add newId _ title _ _ _ _ =>
    jsTrim title = "" || decide (newId ∉ tasks.map Task.id)
  | _ => true

/-- Freshness along a whole operation sequence: each generated id is fresh
with respect to the state at which its operation runs. -/
def opsFresh : List Op → List Task → Bool
  | [], _ => true
  | op :: rest, tasks => opFresh op tasks && opsFresh rest (applyOp op tasks)

/-- Modelled from the spec (section 4.4, `visibleTasks`): a single pass
keeping the tasks that pass the filter and, when the search string is
non-empty, whose title contains the search string as a case-insensitive
substring.  Used to state the refinement claim about `visibleTasks`. -/
def visibleTasksSpec (filter : Filter) (search : String) (tasks : List Task) :
    List Task :=
  tasks.filter (fun t =>
    (match filter with
     | .all => true
     | .active => !t.done
     | .done => t.done)
    && (decide (search = "")
        || containsSub (toLowerStr t.title).data (toLowerStr search).data))

/-- A concrete task whose due timestamp is the number `0` (the epoch),
which JavaScript truthiness treats like a missing due date. -/
def zeroDueTask : Task :=
  { id := "z0", title := "epoch deadline", description := none,
    done := false, createdAt := 100, dueDate := some 0,
    prioridad := .media, categoria := none }

/-- A concrete incomplete task with due timestamp 100, used to exercise
the due-date classification. -/
def lateTask : Task :=
  { id := "l1", title := "late", description := none,
    done := false, createdAt := 0, dueDate := some 100,
    prioridad := .alta, categoria := some .espanol }

/-- A concrete task with the given id and title and all other fields at
their simplest values. -/
def plainTask (id title : String) : Task :=
  { id := id, title := title, description := none,
    done := false, createdAt := 0, dueDate := none,
    prioridad := .media, categoria := none }

/- ===== Helper lemmas shared by several results ===== -/

/-- Lowercasing a string yields the empty string exactly on the empty
string (per-character mapping preserves length). -/
theorem toLowerStr_eq_empty_iff (s : String) : toLowerStr s = "" ↔ s = "" := by
  constructor
  · intro h
    have hd : s.data.map Char.toLower = [] := congrArg String.data h
    exact String.ext (List.map_eq_nil_iff.mp hd)
  · intro h
    subst h
    rfl

/-- Toggling never changes any id, so the id sequence is untouched. -/
theorem toggleTask_map_id (id : String) (ts : List Task) :
    (toggleTask id ts).map Task.id = ts.map Task.id := by
  unfold toggleTask
  rw [List.map_map]
  apply List.map_congr_left
  intro t _
  by_cases ht : t.id = id <;> simp [Function.comp, ht]

/-- Editing a title never changes any id, so the id sequence is
untouched. -/
theorem editTaskTitle_map_id (id : String) (pr : Option String)
    (ts : List Task) :
    (editTaskTitle id pr ts).map Task.id = ts.map Task.id := by
  unfold editTaskTitle
  cases ts.find? (fun t => t.id = id) with
  | none => rfl
  | some t =>
    cases pr with
    | none => rfl
    | some nuevo =>
      by_cases hn : jsTrim nuevo = ""
      · simp [hn]
      · simp only [hn, if_neg, if_false]
        rw [List.map_map]
        apply List.map_congr_left
        intro x _
        by_cases hx : x.id = id <;> simp [Function.comp, hx]

/- ===== Claim theorems ===== -/

/-- Claim C2: for every title whose trimmed value is non-empty, `addTask`
constructs a new task with the generated id, `createdAt` equal to the
current time, `done = false`, and the trimmed title, and inserts it at
position 0 of the task list, leaving all previously present tasks in
place after it. -/
theorem addTask_prepends (newId : String) (now : Int)
    (title descriptionInput : String) (dueDate : Option Int)
    (prioridad : Prioridad) (categoria : Categoria) (tasks : List Task)
    (h : jsTrim title ≠ "") :
    ∃ newTask : Task,
      addTask newId now title descriptionInput dueDate prioridad categoria
          tasks = newTask :: tasks ∧
      newTask.id = newId ∧ newTask.createdAt = now ∧
      newTask.done = false ∧ newTask.title = jsTrim title := by
  unfold addTask
  rw [if_neg h]
  exact ⟨_, rfl, rfl, rfl, rfl, rfl⟩

/-- Witness for C2 at a concrete call. -/
theorem addTask_prepends_witness :
    ∃ newTask : Task,
      addTask "i1" 7 " Buy milk " "" none .media .matematicas [] =
          newTask :: [] ∧
      newTask.id = "i1" ∧ newTask.createdAt = 7 ∧
      newTask.done = false ∧ newTask.title = jsTrim " Buy milk " :=
  addTask_prepends "i1" 7 " Buy milk " "" none .media .matematicas []
    (by decide)

/-- Claim C3: with a title that trims to empty, `addTask` leaves the task list
unchanged, and `editTaskTitle` with a new title that trims to empty
likewise leaves the task list unchanged (for any id, in particular any
existing one). -/
theorem empty_title_rejected (newId : String) (now : Int)
    (title descriptionInput : String) (dueDate : Option Int)
    (prioridad : Prioridad) (categoria : Categoria)
    (id nuevo : String) (tasks : List Task)
    (h1 : jsTrim title = "") (h2 : jsTrim nuevo = "") :
    addTask newId now title descriptionInput dueDate prioridad categoria
        tasks = tasks ∧
    editTaskTitle id (some nuevo) tasks = tasks := by
  constructor
  · unfold addTask
    rw [if_pos h1]
  · unfold editTaskTitle
    cases tasks.find? (fun t => t.id = id) with
    | none => rfl
    | some t => simp [h2]

/-- Witness for C3 at a concrete call. -/
theorem empty_title_rejected_witness :
    addTask "i2" 3 "   " "" none .alta .espanol [plainTask "a" "x"] =
        [plainTask "a" "x"] ∧
    editTaskTitle "a" (some "  ") [plainTask "a" "x"] =
        [plainTask "a" "x"] :=
  empty_title_rejected "i2" 3 "   " "" none .alta .espanol "a" "  "
    [plainTask "a" "x"] (by decide) (by decide)

/-- Claim C5: toggling the same id twice restores the list exactly: each task
keeps all its fields and the order is unchanged. -/
theorem toggleTask_twice (id : String) (tasks : List Task)
    (_h : id ∈ tasks.map Task.id) :
    toggleTask id (toggleTask id tasks) = tasks := by
  unfold toggleTask
  rw [List.map_map]
  have hfun : ∀ t ∈ tasks,
      ((fun t : Task => if t.id = id then { t with done := !t.done } else t) ∘
       (fun t : Task => if t.id = id then { t with done := !t.done } else t))
        t = t := by
    intro t _
    cases t with
    | mk tid ttitle tdesc tdone tcreated tdue tprio tcat =>
      by_cases ht : tid = id <;> simp [Function.comp, ht]
  rw [List.map_congr_left hfun, List.map_id']

/-- Witness for C5 at a concrete call. -/
theorem toggleTask_twice_witness :
    toggleTask "a" (toggleTask "a" [plainTask "a" "x", plainTask "b" "y"]) =
      [plainTask "a" "x", plainTask "b" "y"] :=
  toggleTask_twice "a" [plainTask "a" "x", plainTask "b" "y"] (by decide)

/-- Claim C10: `toggleTask` keeps every task at its position (the id sequence is
unchanged), `removeTask` and `clearDone` yield sublists of the original
list (so the surviving tasks keep their relative order), and `toggleTask`
and `removeTask` with an id that is not present leave the list entirely
unchanged. -/
theorem list_ops_preserve_order (id : String) (tasks : List Task) :
    (toggleTask id tasks).map Task.id = tasks.map Task.id ∧
    (removeTask id tasks).Sublist tasks ∧
    (clearDone tasks).Sublist tasks ∧
    (id ∉ tasks.map Task.id →
      toggleTask id tasks = tasks ∧ removeTask id tasks = tasks) := by
  refine ⟨toggleTask_map_id id tasks, List.filter_sublist tasks,
    List.filter_sublist tasks, ?_⟩
  intro hnot
  have hne : ∀ t ∈ tasks, t.id ≠ id := by
    intro t htmem he
    exact hnot (he ▸ List.mem_map_of_mem Task.id htmem)
  constructor
  · unfold toggleTask
    have hfun : ∀ t ∈ tasks,
        (if t.id = id then { t with done := !t.done } else t) = t := by
      intro t htmem
      rw [if_neg (hne t htmem)]
    rw [List.map_congr_left hfun, List.map_id']
  · unfold removeTask
    rw [List.filter_eq_self]
    intro t htmem
    simpa using hne t htmem

/-- Witness for C10 at a concrete call (the id "z" is absent). -/
theorem list_ops_preserve_order_witness :
    (toggleTask "z" [plainTask "a" "x"]).map Task.id =
        [plainTask "a" "x"].map Task.id ∧
    (removeTask "z" [plainTask "a" "x"]).Sublist [plainTask "a" "x"] ∧
    (clearDone [plainTask "a" "x"]).Sublist [plainTask "a" "x"] ∧
    (toggleTask "z" [plainTask "a" "x"] = [plainTask "a" "x"] ∧
     removeTask "z" [plainTask "a" "x"] = [plainTask "a" "x"]) := by
  have h := list_ops_preserve_order "z" [plainTask "a" "x"]
  exact ⟨h.1, h.2.1, h.2.2.1, h.2.2.2 (by decide)⟩

/-- Claim C8, amended: declining the confirmation leaves both the task list and
the storage untouched; confirming empties the task list, and the storage
ends up holding the serialized empty collection — the key is removed by
`clearAllStorage` but immediately re-created by the `saveTasks` call at the
end of the `render()` that `resetAll` finishes with. -/
theorem resetAll_spec (tasks : List Task) (st : Storage) :
    resetAll false tasks st = (tasks, st) ∧
    resetAll true tasks st = ([], some (encodeTasks [])) :=
  ⟨rfl, rfl⟩

/-- Counterexample to C8 as stated: after a confirmed `resetAll` the
persisted storage key is present again (holding the empty array), not
removed. -/
theorem resetAll_counterexample :
    (resetAll true [plainTask "a" "x"]
        (some (encodeTasks [plainTask "a" "x"]))).2 ≠ none := by
  simp [resetAll, saveTasks, clearAllStorage]

/-- Claim C6, amended: `isOverdue` returns true exactly when the due date is
set to a non-zero timestamp that lies strictly before `now` and the task
is not done.  The non-zero condition comes from JavaScript truthiness:
`task.dueDate && ...` is falsy when the timestamp is the number 0. -/
theorem isOverdue_iff (now : Int) (t : Task) :
    isOverdue now t = true ↔
      ∃ d, t.dueDate = some d ∧ d ≠ 0 ∧ d < now ∧ t.done = false := by
  cases hd : t.dueDate with
  | none => simp [isOverdue, hd]
  | some d => simp [isOverdue, hd, and_assoc]

/-- Counterexample to C6 as stated: a task with due timestamp 0 is "set,
before now, and not done", yet `isOverdue` returns false. -/
theorem isOverdue_counterexample :
    ¬ (isOverdue 5 zeroDueTask = true ↔
       zeroDueTask.dueDate ≠ none ∧ zeroDueTask.dueDate.getD 9 < 5 ∧
       zeroDueTask.done = false) := by
  decide

/-- Claim C7, amended: `getDueDateStatus` yields `normal` when the due date is
absent, is the timestamp 0 (JavaScript truthiness), or the task is done;
otherwise `overdue` strictly before `now`, `today` within the next 24
hours, `soon` within the next 3 days, `normal` beyond that; a task due at
exactly `now` is classified `today`, not `overdue`. -/
theorem getDueDateStatus_spec (now : Int) (t : Task) :
    ((t.dueDate = none ∨ t.dueDate = some 0 ∨ t.done = true) →
      getDueDateStatus now t = .normal) ∧
    (∀ d, t.dueDate = some d → d ≠ 0 → t.done = false →
      ((d < now → getDueDateStatus now t = .overdue) ∧
       (now ≤ d → d < now + dayInMs → getDueDateStatus now t = .today) ∧
       (now + dayInMs ≤ d → d < now + 3 * dayInMs →
         getDueDateStatus now t = .soon) ∧
       (now + 3 * dayInMs ≤ d → getDueDateStatus now t = .normal) ∧
       (d = now → getDueDateStatus now t = .today ∧
         getDueDateStatus now t ≠ .overdue))) := by
  have hday : dayInMs = 86400000 := rfl
  constructor
  · rintro (h | h | h) <;>
      rcases hd : t.dueDate with _ | d <;>
      simp_all [getDueDateStatus]
  · intro d hd hd0 hdone
    have hguard : ¬ (d = 0 ∨ t.done = true) := by simp [hd0, hdone]
    simp only [getDueDateStatus, hd, if_neg hguard]
    refine ⟨?_, ?_, ?_, ?_, ?_⟩
    · intro h1
      rw [if_pos h1]
    · intro h1 h2
      rw [if_neg (by omega), if_pos h2]
    · intro h1 h2
      rw [if_neg (by omega), if_neg (by omega), if_pos h2]
    · intro h1
      rw [if_neg (by omega), if_neg (by omega), if_neg (by omega)]
    · intro h1
      subst h1
      rw [if_neg (by omega), if_pos (by omega)]
      exact ⟨rfl, by decide⟩

/-- Witness for C7 at a concrete call: `lateTask` is due at 100, so at
time 500 it is overdue. -/
theorem getDueDateStatus_spec_witness :
    getDueDateStatus 500 lateTask = .overdue :=
  (((getDueDateStatus_spec 500 lateTask).2) 100 rfl (by decide) rfl).1
    (by decide)

/-- Counterexample to C7 as stated: a task with due timestamp 0 has a due
date set, lies strictly before `now = 5`, and is not done, yet its status
is `normal`, not `overdue`. -/
theorem getDueDateStatus_counterexample :
    zeroDueTask.dueDate = some 0 ∧ zeroDueTask.done = false ∧ (0 : Int) < 5 ∧
    getDueDateStatus 5 zeroDueTask ≠ .overdue := by
  decide

/-- Claim C1: `visibleTasks` equals the specified single pass over the task list:
keep the tasks that pass the filter (all keeps everything, active keeps the
not-done, done keeps the done) and, when the search string is non-empty,
whose title contains the search string as a case-insensitive substring;
being a filter of the original list, the result preserves its order. -/
theorem visibleTasks_eq_spec (filter : Filter) (search : String)
    (tasks : List Task) :
    visibleTasks filter search tasks = visibleTasksSpec filter search tasks := by
  unfold visibleTasks visibleTasksSpec
  by_cases hq : search = ""
  · subst hq
    cases filter <;> simp [toLowerStr, List.filter_filter]
  · have hq2 : toLowerStr search ≠ "" :=
      fun h => hq ((toLowerStr_eq_empty_iff search).mp h)
    cases filter <;>
      simp [hq, hq2, List.filter_filter, jsIncludes, Bool.and_comm]

/-- Decoding the encoding of a single task restores it field for field. -/
theorem decodeTask_encodeTask (t : Task) :
    decodeTask (encodeTask t) = some t := by
  rcases t with ⟨id, title, desc, done, createdAt, dueDate, prio, cat⟩
  rcases desc with _ | d <;> rcases dueDate with _ | dd <;>
    rcases prio with _ | _ | _ <;> rcases cat with _ | (_ | _) <;> rfl

/-- Decoding the elementwise encoding of a task list restores the list. -/
theorem decodeTaskList_map (ts : List Task) :
    decodeTaskList (ts.map encodeTask) = some ts := by
  induction ts with
  | nil => rfl
  | cons t rest ih => simp [decodeTaskList, decodeTask_encodeTask, ih]

/-- Claim C4: saving any task collection and loading it back yields the original
collection, field for field (the optional `description`, `dueDate` and
`categoria` fields included, whether present or absent). -/
theorem load_after_save (tasks : List Task) (st : Storage) :
    loadTasks (saveTasks tasks st) = tasks := by
  simp [loadTasks, saveTasks, encodeTasks, decodeTasks, decodeTaskList_map]

/-- Any single operation preserves distinctness of the ids, provided the
id handed to an inserting `add` is fresh. -/
theorem applyOp_nodup (op : Op) (tasks : List Task)
    (h : idsNodup tasks) (hf : opFresh op tasks = true) :
    idsNodup (applyOp op tasks) := by
  cases op with
  | add newId now title descriptionInput dueDate prioridad categoria =>
    by_cases htrim : jsTrim title = ""
    · simpa [applyOp, addTask, htrim] using h
    · have hfm : ∀ x ∈ tasks, ¬ x.id = newId := by
        simp [opFresh, htrim] at hf
        exact hf
      simp only [applyOp, addTask, if_neg htrim, idsNodup, List.map_cons,
        List.nodup_cons]
      exact ⟨by simpa using hfm, h⟩
  | toggle id =>
    simpa [applyOp, idsNodup, toggleTask_map_id] using h
  | remove id =>
    exact ((List.filter_sublist tasks).map Task.id).nodup h
  | clearDone =>
    exact ((List.filter_sublist tasks).map Task.id).nodup h
  | editTitle id promptResult =>
    simpa [applyOp, idsNodup, editTaskTitle_map_id] using h
  | reset confirmAnswer =>
    cases confirmAnswer with
    | false => simpa [applyOp] using h
    | true => simp [applyOp, idsNodup]

/-- A whole operation sequence preserves distinctness of the ids when
every generated id along the run is fresh. -/
theorem applyOps_nodup (ops : List Op) (tasks : List Task)
    (h : idsNodup tasks) (hf : opsFresh ops tasks = true) :
    idsNodup (applyOps ops tasks) := by
  induction ops generalizing tasks with
  | nil => exact h
  | cons op rest ih =>
    rw [opsFresh, Bool.and_eq_true] at hf
    exact ih (applyOp op tasks) (applyOp_nodup op tasks h hf.1) hf.2

/-- Initialization yields distinct ids when the loaded collection has
distinct ids and the three sample-seed ids are pairwise distinct. -/
theorem initTasks_nodup (st : Storage) (id1 id2 id3 : String) (now : Int)
    (hload : idsNodup (loadTasks st))
    (h12 : id1 ≠ id2) (h13 : id1 ≠ id3) (h23 : id2 ≠ id3) :
    idsNodup (initTasks st id1 id2 id3 now) := by
  unfold initTasks
  by_cases he : (loadTasks st).isEmpty
  · simp [he, idsNodup, h12, h13, h23]
  · simpa [he] using hload

/-- Claim C9, amended: provided the persisted collection has pairwise-distinct
ids and every freshly generated id (the three seed ids and each id handed
to an inserting `addTask`) is distinct from the ids present at that
moment, every reachable state — after initialization and any sequence of
`addTask`, `toggleTask`, `removeTask`, `clearDone`, `editTaskTitle` and
`resetAll` operations — has pairwise-distinct task ids. -/
theorem ids_unique_reachable (st : Storage) (id1 id2 id3 : String)
    (now : Int) (ops : List Op)
    (hload : idsNodup (loadTasks st))
    (h12 : id1 ≠ id2) (h13 : id1 ≠ id3) (h23 : id2 ≠ id3)
    (hf : opsFresh ops (initTasks st id1 id2 id3 now) = true) :
    idsNodup (applyOps ops (initTasks st id1 id2 id3 now)) :=
  applyOps_nodup ops _
    (initTasks_nodup st id1 id2 id3 now hload h12 h13 h23) hf

/-- Witness for C9: seeded start (empty storage) followed by an add, a
toggle, a remove, a clear of the done tasks and a declined reset. -/
theorem ids_unique_reachable_witness :
    idsNodup (applyOps
      [.add "d" 5 "write tests" "" none .media .matematicas,
       .toggle "a", .remove "b", .clearDone, .reset false]
      (initTasks none "a" "b" "c" 0)) :=
  ids_unique_reachable none "a" "b" "c" 0
    [.add "d" 5 "write tests" "" none .media .matematicas,
     .toggle "a", .remove "b", .clearDone, .reset false]
    (by decide) (by decide) (by decide) (by decide) (by decide)

/-- Counterexample to C9 as stated: the loader performs no validation, so
initializing from a persisted collection that contains two tasks with the
same id yields a state whose ids are not unique. -/
theorem ids_unique_counterexample :
    ¬ idsNodup (initTasks
      (some (encodeTasks [plainTask "dup" "first", plainTask "dup" "second"]))
      "x" "y" "z" 0) := by
  decide

end TodoApp
